import Mathlib

/-!
# WarpFS chunked-upload session engine: shallow embedding

This file embeds the chunked-upload subsystem of the WarpFS server
(`server.js`: the `/upload-chunked/init`, `/upload-chunked/chunk`,
`/upload-chunked/finalize`, `/upload-chunked/cancel/:sessionId` and `/upload`
routes, `cleanupTempDirectory`, and the stale-session `setInterval` sweep)
together with the client-side chunk splitting loop of
`src/views/FileSystem.tsx` (`uploadFileChunked`), and proves properties of the
embedded operations.

Modelling conventions:
* bytes are `List Nat`; files on disk are association lists from paths/keys to
  byte lists (`setMap` models both a JS `Map.set` and an overwriting file
  write: replace in place, else append);
* the per-session scratch directory `path.join(__dirname, 'temp', sessionId)`
  is represented by the session's `tempDir` string; a chunk blob
  `tempDir/chunk_%06d` is keyed by `(tempDir, chunkIndex)` (the zero padded
  decimal encoding is injective, so the index is a faithful key);
* `cleanupTempDirectory` removes the whole `__dirname/temp` tree; every chunk
  blob of every session lives under it, so it is modelled as setting the
  chunk-blob store to `[]`;
* request fields that may be absent are `Option`s; JavaScript truthiness tests
  (`!field`) are modelled by `strPresent` / `natPresent` (absent, the empty
  string and `0` are all falsy);
* an I/O failure of the destination write stream during finalize's combine
  loop is injected through an explicit `ioFail : Option Nat` parameter: the
  write of chunk `i` fails iff `ioFail = some i`.  `ioFail = none` is the
  failure-free run.  Path normalisation (`..` resolution inside `path.join`)
  is not modelled; the sandbox containment check is carried over verbatim on
  the concatenated path.
-/

/-- Bytes of a file or chunk. -/
abbrev Bytes := List Nat

/-! ## Association-list maps (JS `Map` semantics and flat file stores) -/

/-- First-match lookup, as `Map.get` / `fs.access`+`readFile` on our stores. -/
def lookupMap {κ β : Type} [DecidableEq κ] : List (κ × β) → κ → Option β
  | [], _ => none
  | (k', v) :: rest, k => if k' = k then some v else lookupMap rest k

/-- `Map.set` / overwriting file write: replace the first binding in place,
append when the key is new. -/
def setMap {κ β : Type} [DecidableEq κ] : List (κ × β) → κ → β → List (κ × β)
  | [], k, v => [(k, v)]
  | (k', v') :: rest, k, v =>
    if k' = k then (k, v) :: rest else (k', v') :: setMap rest k v

/-- `Map.delete` / file removal: drop the first binding with the key. -/
def delMap {κ β : Type} [DecidableEq κ] : List (κ × β) → κ → List (κ × β)
  | [], _ => []
  | (k', v') :: rest, k => if k' = k then rest else (k', v') :: delMap rest k

/-! ## Path and filename helpers (`path.extname`, `path.basename`, `path.join`) -/

/-- Split a character list at its last `'.'`: returns the part before it and
the part from the dot on, or `none` when there is no dot. -/
def splitLastDot : List Char → Option (List Char × List Char)
  | [] => none
  | c :: rest =>
    match splitLastDot rest with
    | some (b, e) => some (c :: b, e)
    | none => if c = '.' then some ([], c :: rest) else none

/-- Node's `path.extname`: the suffix from the last dot, empty for dotless
names and for names whose only dot is the leading character. -/
def extname (name : String) : String :=
  match splitLastDot name.data with
  | some (b, e) => if b = [] then "" else String.mk e
  | none => ""

/-- Node's `path.basename(name, path.extname(name))`. -/
def baseNoExt (name : String) : String :=
  match splitLastDot name.data with
  | some (b, _) => if b = [] then name else String.mk b
  | none => name

/-- `path.join` of a directory and a relative request path, without `..`
normalisation (no claim exercises traversal). -/
def joinPath (dir rel : String) : String := dir ++ "/" ++ rel

/-- `getUserDirectory(userId)`: `path.join(__dirname, userId)`. -/
def getUserDirectory (userId : String) : String := "__dirname/" ++ userId

/-- `s.startsWith(pre)`, computed on the character lists. -/
def strStartsWith (s pre : String) : Bool := pre.data.isPrefixOf s.data

/-! ## Data model -/

/-- One entry of the server's `chunkSessions` map (route `/upload-chunked/init`
builds it). -/
structure Session where
  sessionId : String
  fileName : String
  fileSize : Nat
  totalChunks : Nat
  chunkSize : Option Nat
  userId : String
  targetDir : String
  tempDir : String
  receivedChunks : List Int
  startTime : Nat
  lastUpdate : Nat
  deriving Repr, DecidableEq

/-- The server's mutable state touched by the chunked-upload subsystem:
`chunkSessions`, the chunk blobs under `__dirname/temp`, the files in user
target directories (keyed by directory and file name), and the session ids
present in `uploadProgress`. -/
structure ServerState where
  sessions : List (String × Session)
  chunkFiles : List ((String × Int) × Bytes)
  destFiles : List ((String × String) × Bytes)
  uploadProgress : List String
  deriving Repr, DecidableEq

/-- A server state with nothing in flight. -/
def emptyState : ServerState :=
  { sessions := [], chunkFiles := [], destFiles := [], uploadProgress := [] }

/-- The typed outcomes the routes produce (HTTP status plus body shape). -/
inductive Err where
  /-- 400 with a message (missing/malformed fields). -/
  | invalidRequest : String → Err
  /-- 404 `Upload session not found`. -/
  | notFound : String → Err
  /-- 403 `Access denied`. -/
  | forbidden : String → Err
  /-- 400 `Missing chunks` with `received` and `expected` counts. -/
  | missingChunks : Nat → Nat → Err
  /-- 500 with the underlying error message. -/
  | serverError : String → Err
  deriving Repr, DecidableEq

/-- The `fileItem` shape finalize and the direct upload return (timestamps and
the hash-based id, which no claim inspects, are omitted). -/
structure FileItem where
  name : String
  size : Nat
  extension : String
  isPublic : Bool
  deriving Repr, DecidableEq

/-- Build the response record for a placed file:
`extension: path.extname(finalPath).slice(1)` (drop the leading dot). -/
def mkFileItem (name : String) (size : Nat) : FileItem :=
  { name := name, size := size, extension := String.mk ((extname name).data.drop 1),
    isPublic := false }

/-- JS truthiness of an optional string request field (`!field`). -/
def strPresent : Option String → Bool
  | none => false
  | some s => s ≠ ""

/-- JS truthiness of an optional numeric request field (`!field`). -/
def natPresent : Option Nat → Bool
  | none => false
  | some n => n ≠ 0

/-- `err.isError`-style discriminator for route outcomes. -/
def isErr {α : Type} : Except Err α → Bool
  | .error _ => true
  | .ok _ => false

/-! ## `POST /upload-chunked/init` -/

/-- The `/upload-chunked/init` handler.  Checks
`!fileName || !fileSize || !totalChunks || !sessionId`, resolves
`targetDir = path.join(userDir, requestedPath)` with the `startsWith` sandbox
check, allocates the temp directory, and stores the session with
`chunkSessions.set(sessionId, session)` — note `set` replaces any existing
session with the same id.  `chunkSize` is stored without validation. -/
def initChunked (st : ServerState) (now : Nat) (fileName : Option String)
    (fileSize : Option Nat) (totalChunks : Option Nat) (chunkSize : Option Nat)
    (sessionId : Option String) (reqPath : Option String) (userId : String) :
    ServerState × Except Err String :=
  if strPresent fileName = false ∨ natPresent fileSize = false ∨
      natPresent totalChunks = false ∨ strPresent sessionId = false then
    (st, .error (.invalidRequest "Missing required fields for chunked upload"))
  else
    let userDir := getUserDirectory userId
    let targetDir := joinPath userDir (reqPath.getD "/")
    if strStartsWith targetDir userDir = false then
      (st, .error (.forbidden "Access denied"))
    else
      let sid := sessionId.getD ""
      let sess : Session :=
        { sessionId := sid
          fileName := fileName.getD ""
          fileSize := fileSize.getD 0
          totalChunks := totalChunks.getD 0
          chunkSize := chunkSize
          userId := userId
          targetDir := targetDir
          tempDir := "__dirname/temp/" ++ sid
          receivedChunks := []
          startTime := now
          lastUpdate := now }
      ({ st with sessions := setMap st.sessions sid sess },
        .ok sid)

/-! ## `POST /upload-chunked/chunk` -/

/-- JS `Set.add` on the insertion-ordered `receivedChunks` set. -/
def addIdx (s : List Int) (i : Int) : List Int :=
  if s.contains i then s else s ++ [i]

/-- The `/upload-chunked/chunk` handler.  Checks
`!sessionId || chunkIndex === undefined || !chunk`, looks the session up,
enforces the owner, then moves the blob to
`tempDir/chunk_${chunkIndex.padStart(6,'0')}` and records the index.  There is
no range check on `chunkIndex`. -/
def uploadChunk (st : ServerState) (now : Nat) (sessionId : Option String)
    (chunkIndex : Option Int) (chunk : Option Bytes) (userId : String) :
    ServerState × Except Err (Int × Nat × Nat) :=
  if strPresent sessionId = false ∨ chunkIndex = none ∨ chunk = none then
    (st, .error (.invalidRequest "Missing chunk data"))
  else
    let sid := sessionId.getD ""
    match lookupMap st.sessions sid with
    | none => (st, .error (.notFound "Upload session not found"))
    | some sess =>
      if sess.userId ≠ userId then (st, .error (.forbidden "Access denied"))
      else
        let idx := chunkIndex.getD 0
        let data := chunk.getD []
        let sess' := { sess with
          receivedChunks := addIdx sess.receivedChunks idx
          lastUpdate := now }
        ({ st with
            chunkFiles := setMap st.chunkFiles (sess.tempDir, idx) data
            sessions := setMap st.sessions sid sess' },
          .ok (idx, sess'.receivedChunks.length, sess.totalChunks))

/-! ## Filename conflict resolution -/

/-- One probe name of the conflict loops:
`${nameWithoutExt} (${counter})${ext}`, always rebuilt from the original
file name. -/
def conflictName (fileName : String) (counter : Nat) : String :=
  baseNoExt fileName ++ " (" ++ toString counter ++ ")" ++ extname fileName

/-- The `while (true) { try { access(finalPath) ... } catch { break } }` probe
loop shared by finalize and the direct upload, run against a list of existing
names.  The loop terminates as soon as a probed name is free; `fuel` bounds
the recursion and `names.length + 1` probes of pairwise distinct candidates
always reach a free name, so the bound is never the exit in reachable use. -/
def resolveLoop (names : List String) (fileName : String) :
    Nat → Nat → String → String
  | _, 0, current => current
  | counter, fuel + 1, current =>
    if names.contains current then
      resolveLoop names fileName (counter + 1) fuel (conflictName fileName counter)
    else current

/-- Conflict-resolved name for `fileName` against the names already present in
the target directory. -/
def resolveConflict (names : List String) (fileName : String) : String :=
  resolveLoop names fileName 1 (names.length + 1) fileName

/-- The file names present in one directory of the destination store. -/
def namesIn (dest : List ((String × String) × Bytes)) (dir : String) :
    List String :=
  dest.filterMap (fun p => if p.1.1 = dir then some p.1.2 else none)

/-! ## `POST /upload-chunked/finalize` -/

/-- The combine loop body over the listed indices: per index, check the chunk
blob exists (`throw new Error('Chunk i not found')` otherwise), read it, and
write it to the destination stream; the stream write of chunk `i` fails iff
`ioFail = some i`.  Returns the bytes written so far and the error message of
the first failure, if any. -/
def combineGo (files : List ((String × Int) × Bytes)) (tempDir : String)
    (ioFail : Option Nat) (acc : Bytes) : List Nat → Bytes × Option String
  | [] => (acc, none)
  | i :: rest =>
    match lookupMap files (tempDir, (i : Int)) with
    | none => (acc, some ("Chunk " ++ toString i ++ " not found"))
    | some data =>
      if ioFail = some i then (acc, some "stream write error")
      else combineGo files tempDir ioFail (acc ++ data) rest

/-- The finalize combine phase: iterate indices `0 .. totalChunks - 1`
ascending. -/
def combineChunks (files : List ((String × Int) × Bytes)) (tempDir : String)
    (totalChunks : Nat) (ioFail : Option Nat) : Bytes × Option String :=
  combineGo files tempDir ioFail [] (List.range totalChunks)

/-- The `/upload-chunked/finalize` handler.  Checks
`!sessionId || !fileName || !totalChunks` (the request's `totalChunks` is used
only for this presence test), session lookup, owner, then
`receivedChunks.size !== session.totalChunks` (400 with received/expected),
resolves the conflict-free destination name, opens the write stream (the
destination file exists from this point on), and runs the combine loop.  On a
combine error the catch block removes the session's temp directory, deletes
the session, runs `cleanupTempDirectory` (wiping every chunk blob), and
answers 500 with the underlying message — the partial destination file is not
removed.  On success it removes the temp directories the same way, deletes
the session, and returns the file item. -/
def finalizeUpload (st : ServerState) (sessionId : Option String)
    (fileName : Option String) (totalChunks : Option Nat) (userId : String)
    (ioFail : Option Nat) : ServerState × Except Err FileItem :=
  if strPresent sessionId = false ∨ strPresent fileName = false ∨
      natPresent totalChunks = false then
    (st, .error (.invalidRequest "Missing finalization data"))
  else
    let sid := sessionId.getD ""
    let fname := fileName.getD ""
    match lookupMap st.sessions sid with
    | none => (st, .error (.notFound "Upload session not found"))
    | some sess =>
      if sess.userId ≠ userId then (st, .error (.forbidden "Access denied"))
      else if sess.receivedChunks.length ≠ sess.totalChunks then
        (st, .error (.missingChunks sess.receivedChunks.length sess.totalChunks))
      else
        let finalName := resolveConflict (namesIn st.destFiles sess.targetDir) fname
        let combined := combineChunks st.chunkFiles sess.tempDir sess.totalChunks ioFail
        let destFiles' := setMap st.destFiles (sess.targetDir, finalName) combined.1
        match combined.2 with
        | some msg =>
          ({ st with
              destFiles := destFiles'
              sessions := delMap st.sessions sid
              chunkFiles := [] },
            .error (.serverError msg))
        | none =>
          ({ st with
              destFiles := destFiles'
              sessions := delMap st.sessions sid
              chunkFiles := [] },
            .ok (mkFileItem finalName combined.1.length))

/-! ## `DELETE /upload-chunked/cancel/:sessionId` -/

/-- The cancel handler: 404 when the session is unknown, 403 on an owner
mismatch, otherwise remove the session's temp directory, delete the session,
drop its `uploadProgress` entry, and run `cleanupTempDirectory` (wiping every
chunk blob). -/
def cancelUpload (st : ServerState) (sessionId : String) (userId : String) :
    ServerState × Except Err Unit :=
  match lookupMap st.sessions sessionId with
  | none => (st, .error (.notFound "Upload session not found"))
  | some sess =>
    if sess.userId ≠ userId then (st, .error (.forbidden "Access denied"))
    else
      let afterRm := st.chunkFiles.filter (fun p => !(p.1.1 == sess.tempDir))
      let st1 := { st with
        chunkFiles := afterRm
        sessions := delMap st.sessions sessionId
        uploadProgress := st.uploadProgress.filter (fun s => !(s == sessionId)) }
      ({ st1 with chunkFiles := [] }, .ok ())

/-! ## Stale-session sweep (`setInterval`, every 10 minutes) -/

/-- `STALE_TIME = 30 * 60 * 1000`. -/
def staleTime : Nat := 30 * 60 * 1000

/-- The sweep interval, `10 * 60 * 1000` milliseconds. -/
def sweepInterval : Nat := 10 * 60 * 1000

/-- One cycle of the stale-session sweep: delete every session with
`now - lastUpdate > STALE_TIME` together with its temp directory, then run the
unconditional `cleanupTempDirectory`, which wipes every remaining chunk blob
of every session, stale or not. -/
def janitorSweep (st : ServerState) (now : Nat) : ServerState :=
  let staleDirs := (st.sessions.filter
      (fun p => decide (now - p.2.lastUpdate > staleTime))).map
      (fun p => p.2.tempDir)
  let st1 := { st with
    sessions := st.sessions.filter
      (fun p => !(decide (now - p.2.lastUpdate > staleTime)))
    chunkFiles := st.chunkFiles.filter (fun p => !(staleDirs.contains p.1.1)) }
  { st1 with chunkFiles := [] }

/-! ## `POST /upload` (direct, non-chunked path) -/

/-- The multer `fileFilter` deny list. -/
def dangerousExts : List String :=
  [".exe", ".bat", ".cmd", ".com", ".scr", ".vbs", ".js"]

/-- ASCII lowercasing of one character (`toLowerCase` on extension text). -/
def lowerChar (c : Char) : Char :=
  if 'A' ≤ c ∧ c ≤ 'Z' then Char.ofNat (c.toNat + 32) else c

/-- `toLowerCase` over the character list of a string. -/
def strToLower (s : String) : String := String.mk (s.data.map lowerChar)

/-- Whether multer's `fileFilter` rejects a file name (empty name or a
deny-listed extension, compared lowercase). -/
def rejectedByFilter (name : String) : Bool :=
  name == "" || dangerousExts.contains (strToLower (extname name))

/-- Process one direct-upload file: multer's `diskStorage` has already saved
the payload at `targetDir/originalname` (overwriting any file there), then the
handler probes for a conflict-free name starting from that same saved path and
renames when the resolved name differs. -/
def processDirectFile (dest : List ((String × String) × Bytes)) (dir : String)
    (originalName : String) (bytes : Bytes) :
    List ((String × String) × Bytes) × FileItem :=
  let dest1 := setMap dest (dir, originalName) bytes
  let finalName := resolveConflict (namesIn dest1 dir) originalName
  let dest2 :=
    if finalName ≠ originalName then
      setMap (delMap dest1 (dir, originalName)) (dir, finalName) bytes
    else dest1
  (dest2, mkFileItem finalName bytes.length)

/-- The `/upload` handler over a batch of `(originalname, bytes)` files: a
`fileFilter` rejection fails the whole request before the handler runs; an
empty batch is a 400; otherwise each file is saved and conflict-renamed in
order and the handler ends with `cleanupTempDirectory` (wiping every chunk
blob of every chunked session). -/
def uploadDirect (st : ServerState) (userId : String) (reqPath : Option String)
    (files : List (String × Bytes)) :
    ServerState × Except Err (List FileItem) :=
  if files.any (fun f => rejectedByFilter f.1) then
    (st, .error (.serverError "File type is not allowed"))
  else if files.isEmpty then
    (st, .error (.invalidRequest "No files uploaded"))
  else
    let dir := joinPath (getUserDirectory userId) (reqPath.getD "/")
    let out := files.foldl
      (fun (acc : List ((String × String) × Bytes) × List FileItem) f =>
        let step := processDirectFile acc.1 dir f.1 f.2
        (step.1, acc.2 ++ [step.2]))
      (st.destFiles, [])
    if out.2.isEmpty then
      (st, .error (.serverError "No files were successfully uploaded"))
    else
      ({ st with destFiles := out.1, chunkFiles := [] }, .ok out.2)

/-! ## Client-side splitting (`uploadFileChunked` in `FileSystem.tsx`) -/

/-- `CHUNK_SIZE = 5 * 1024 * 1024`. -/
def chunkSizeDefault : Nat := 5 * 1024 * 1024

/-- `Math.ceil(file.size / CHUNK_SIZE)` on naturals. -/
def numChunks (size c : Nat) : Nat := (size + c - 1) / c

/-- The client splitting loop: chunk `i` is
`file.slice(i * C, Math.min((i + 1) * C, file.size))`. -/
def splitChunks (data : Bytes) (c : Nat) : List Bytes :=
  (List.range (numChunks data.length c)).map (fun i => (data.drop (i * c)).take c)

/-- Reassembly of chunks in index order (what the combine loop computes when
every indexed blob is present). -/
def reassemble (chunks : List Bytes) : Bytes := chunks.flatten

/-- Fold a list of `(index, bytes)` chunk uploads into the state, in arrival
order (each through the `/upload-chunked/chunk` handler). -/
def applyUploads (st : ServerState) (now : Nat) (sid uid : String)
    (ups : List (Int × Bytes)) : ServerState :=
  ups.foldl (fun s u => (uploadChunk s now (some sid) (some u.1) (some u.2) uid).1) st

/-! ## Concrete scenario states (used by counterexamples and witnesses) -/

/-- Scenario: one session `A` with `totalChunks = 1` whose single chunk `0`
has been uploaded. -/
def stOneChunk : ServerState :=
  (uploadChunk (initChunked emptyState 0 (some "a.txt") (some 1) (some 1)
    (some 5) (some "A") (some "/") "u").1 1 (some "A") (some 0) (some [7]) "u").1

/-- The session record stored for `A` in `stOneChunk`. -/
def sessA1 : Session :=
  { sessionId := "A", fileName := "a.txt", fileSize := 1, totalChunks := 1,
    chunkSize := some 5, userId := "u",
    targetDir := joinPath (getUserDirectory "u") "/",
    tempDir := "__dirname/temp/A", receivedChunks := [0],
    startTime := 0, lastUpdate := 1 }

/-- Scenario: a freshly initialised session `S` expecting two chunks, none
uploaded yet. -/
def stTwoTotal : ServerState :=
  (initChunked emptyState 0 (some "a.txt") (some 10) (some 2) (some 5)
    (some "S") (some "/") "u").1

/-- The session record stored for `S` in `stTwoTotal`. -/
def sessS2 : Session :=
  { sessionId := "S", fileName := "a.txt", fileSize := 10, totalChunks := 2,
    chunkSize := some 5, userId := "u",
    targetDir := joinPath (getUserDirectory "u") "/",
    tempDir := "__dirname/temp/S", receivedChunks := [],
    startTime := 0, lastUpdate := 0 }

/-- Scenario: a freshly initialised session `C` expecting three chunks. -/
def stInit3 : ServerState :=
  (initChunked emptyState 0 (some "f.bin") (some 3) (some 3) (some 1)
    (some "C") (some "/") "u").1

/-- The session record stored for `C` in `stInit3`. -/
def sessC3 : Session :=
  { sessionId := "C", fileName := "f.bin", fileSize := 3, totalChunks := 3,
    chunkSize := some 1, userId := "u",
    targetDir := joinPath (getUserDirectory "u") "/",
    tempDir := "__dirname/temp/C", receivedChunks := [],
    startTime := 0, lastUpdate := 0 }

/-- Scenario: two complete one-chunk sessions `A` and `B` owned by `u`. -/
def stTwoSessions : ServerState :=
  (uploadChunk
    (uploadChunk
      (initChunked (initChunked emptyState 0 (some "a.txt") (some 1) (some 1)
          (some 5) (some "A") (some "/") "u").1
        0 (some "b.txt") (some 1) (some 1) (some 5) (some "B") (some "/") "u").1
      1 (some "A") (some 0) (some [7]) "u").1
    2 (some "B") (some 0) (some [8]) "u").1

/-- The session record stored for `B` in `stTwoSessions`. -/
def sessB1 : Session :=
  { sessionId := "B", fileName := "b.txt", fileSize := 1, totalChunks := 1,
    chunkSize := some 5, userId := "u",
    targetDir := joinPath (getUserDirectory "u") "/",
    tempDir := "__dirname/temp/B", receivedChunks := [0],
    startTime := 0, lastUpdate := 2 }

/-! ## Lemmas about the association-list maps -/

theorem lookupMap_setMap_self {κ β : Type} [DecidableEq κ]
    (m : List (κ × β)) (k : κ) (v : β) :
    lookupMap (setMap m k v) k = some v := by
  induction m with
  | nil => simp [setMap, lookupMap]
  | cons p rest ih =>
    by_cases h : p.1 = k
    · simp [setMap, h, lookupMap]
    · simp [setMap, h, lookupMap, ih]

theorem lookupMap_setMap_ne {κ β : Type} [DecidableEq κ]
    (m : List (κ × β)) (k k' : κ) (v : β) (h : k' ≠ k) :
    lookupMap (setMap m k v) k' = lookupMap m k' := by
  induction m with
  | nil => simp [setMap, lookupMap, Ne.symm h]
  | cons p rest ih =>
    by_cases hp : p.1 = k
    · subst hp
      simp [setMap, lookupMap, Ne.symm h]
    · by_cases hp' : p.1 = k'
      · simp [setMap, hp, lookupMap, hp', h]
      · simp [setMap, hp, lookupMap, hp', ih]

theorem lookupMap_delMap_ne {κ β : Type} [DecidableEq κ]
    (m : List (κ × β)) (k k' : κ) (h : k' ≠ k) :
    lookupMap (delMap m k) k' = lookupMap m k' := by
  induction m with
  | nil => simp [delMap]
  | cons p rest ih =>
    by_cases hp : p.1 = k
    · subst hp
      simp [delMap, lookupMap, Ne.symm h]
    · by_cases hp' : p.1 = k'
      · simp [delMap, hp, lookupMap, hp', h]
      · simp [delMap, hp, lookupMap, hp', ih]

theorem lookupMap_eq_none_of_not_mem {κ β : Type} [DecidableEq κ]
    (m : List (κ × β)) (k : κ) (h : k ∉ m.map Prod.fst) :
    lookupMap m k = none := by
  induction m with
  | nil => rfl
  | cons p rest ih =>
    simp only [List.map_cons, List.mem_cons] at h
    push_neg at h
    simp [lookupMap, Ne.symm h.1, ih h.2]

theorem lookupMap_delMap_self {κ β : Type} [DecidableEq κ]
    (m : List (κ × β)) (k : κ) (hnd : (m.map Prod.fst).Nodup) :
    lookupMap (delMap m k) k = none := by
  induction m with
  | nil => rfl
  | cons p rest ih =>
    simp only [List.map_cons, List.nodup_cons] at hnd
    by_cases hp : p.1 = k
    · subst hp
      simp [delMap, lookupMap_eq_none_of_not_mem rest p.1 hnd.1]
    · simp [delMap, hp, lookupMap, ih hnd.2]

theorem delMap_setMap {κ β : Type} [DecidableEq κ]
    (m : List (κ × β)) (k : κ) (v : β) :
    delMap (setMap m k v) k = delMap m k := by
  induction m with
  | nil => simp [setMap, delMap]
  | cons p rest ih =>
    by_cases hp : p.1 = k
    · simp [setMap, hp, delMap]
    · simp [setMap, hp, delMap, ih]

theorem setMap_setMap {κ β : Type} [DecidableEq κ]
    (m : List (κ × β)) (k : κ) (v v' : β) :
    setMap (setMap m k v) k v' = setMap m k v' := by
  induction m with
  | nil => simp [setMap]
  | cons p rest ih =>
    by_cases hp : p.1 = k
    · simp [setMap, hp]
    · simp [setMap, hp, ih]

theorem setMap_eq_self_of_lookup {κ β : Type} [DecidableEq κ]
    (m : List (κ × β)) (k : κ) (v : β) (h : lookupMap m k = some v) :
    setMap m k v = m := by
  induction m with
  | nil => simp [lookupMap] at h
  | cons p rest ih =>
    by_cases hp : p.1 = k
    · have hv : p.2 = v := by simpa [lookupMap, hp] using h
      simp only [setMap, hp, if_pos]
      rw [← hv, ← hp]
    · simp only [lookupMap, hp, if_false, ite_false] at h
      simp [setMap, hp, ih h]

theorem lookupMap_filter {κ β : Type} [DecidableEq κ]
    (m : List (κ × β)) (q : κ × β → Bool) (k : κ) (v : β)
    (hnd : (m.map Prod.fst).Nodup) (h : lookupMap m k = some v) :
    lookupMap (m.filter q) k = if q (k, v) then some v else none := by
  induction m with
  | nil => simp [lookupMap] at h
  | cons p rest ih =>
    simp only [List.map_cons, List.nodup_cons] at hnd
    by_cases hp : p.1 = k
    · have hv : p.2 = v := by simpa [lookupMap, hp] using h
      have hpv : p = (k, v) := by
        rw [← hp, ← hv]
      subst hpv
      by_cases hq : q (k, v)
      · simp [List.filter_cons, hq, lookupMap]
      · simp only [List.filter_cons, hq, Bool.false_eq_true, if_false]
        have hout : k ∉ (rest.filter q).map Prod.fst := by
          intro hmem
          obtain ⟨e, he, hek⟩ := List.mem_map.mp hmem
          exact hnd.1 (List.mem_map.mpr ⟨e, (List.mem_filter.mp he).1, hek⟩)
        simpa [hq] using lookupMap_eq_none_of_not_mem (rest.filter q) k hout
    · simp only [lookupMap, hp, if_false, ite_false] at h
      by_cases hq : q p
      · simp [List.filter_cons, hq, lookupMap, hp, ih hnd.2 h]
      · simp [List.filter_cons, hq, ih hnd.2 h]

/-! ## Lemmas about the combine loop -/

theorem combineGo_congr (f1 f2 : List ((String × Int) × Bytes)) (tempDir : String)
    (ioFail : Option Nat) (acc : Bytes) (l : List Nat)
    (h : ∀ i ∈ l, lookupMap f1 (tempDir, (i : Int)) = lookupMap f2 (tempDir, (i : Int))) :
    combineGo f1 tempDir ioFail acc l = combineGo f2 tempDir ioFail acc l := by
  induction l generalizing acc with
  | nil => rfl
  | cons i rest ih =>
    have hi := h i (List.mem_cons_self i rest)
    have hrest : ∀ j ∈ rest, lookupMap f1 (tempDir, (j : Int)) = lookupMap f2 (tempDir, (j : Int)) :=
      fun j hj => h j (List.mem_cons_of_mem i hj)
    simp only [combineGo, hi]
    cases lookupMap f2 (tempDir, (i : Int)) with
    | none => rfl
    | some data =>
      by_cases hio : ioFail = some i
      · simp [hio]
      · simp [hio, ih (acc ++ data) hrest]

theorem combineGo_snd_none_iff (f : List ((String × Int) × Bytes)) (tempDir : String)
    (acc : Bytes) (l : List Nat) :
    (combineGo f tempDir none acc l).2 = none ↔
      ∀ i ∈ l, (lookupMap f (tempDir, (i : Int))).isSome := by
  induction l generalizing acc with
  | nil => simp [combineGo]
  | cons i rest ih =>
    cases hl : lookupMap f (tempDir, (i : Int)) with
    | none =>
      simp only [combineGo, hl]
      constructor
      · intro h; cases h
      · intro h
        have := h i (List.mem_cons_self i rest)
        rw [hl] at this
        cases this
    | some data =>
      simp only [combineGo, hl]
      have : (none : Option Nat) = some i ↔ False := by simp
      simp only [reduceCtorEq, if_false]
      rw [ih (acc ++ data)]
      constructor
      · intro h j hj
        rcases List.mem_cons.mp hj with hj | hj
        · subst hj; simp [hl]
        · exact h j hj
      · intro h j hj
        exact h j (List.mem_cons_of_mem i hj)

theorem combineGo_snd_isSome_of_ioFail (f : List ((String × Int) × Bytes))
    (tempDir : String) (j : Nat) (acc : Bytes) (l : List Nat) (hj : j ∈ l) :
    (combineGo f tempDir (some j) acc l).2.isSome := by
  induction l generalizing acc with
  | nil => cases hj
  | cons i rest ih =>
    cases hl : lookupMap f (tempDir, (i : Int)) with
    | none => simp [combineGo, hl]
    | some data =>
      by_cases hij : j = i
      · simp [combineGo, hl, hij]
      · have : j ∈ rest := by
          rcases List.mem_cons.mp hj with h | h
          · exact absurd h hij
          · exact h
        have hne : (some j : Option Nat) ≠ some i := by
          intro hc; exact hij (Option.some.inj hc)
        simp only [combineGo, hl, hne, if_false, ite_false]
        exact ih (acc ++ data) this

theorem combineGo_acc (f : List ((String × Int) × Bytes)) (tempDir : String)
    (ioFail : Option Nat) (acc : Bytes) (l : List Nat) :
    combineGo f tempDir ioFail acc l =
      ((acc ++ (combineGo f tempDir ioFail [] l).1, (combineGo f tempDir ioFail [] l).2)) := by
  induction l generalizing acc with
  | nil => simp [combineGo]
  | cons i rest ih =>
    cases hl : lookupMap f (tempDir, (i : Int)) with
    | none => simp [combineGo, hl]
    | some data =>
      by_cases hio : ioFail = some i
      · simp [combineGo, hl, hio]
      · simp only [combineGo, hl, hio, if_false, ite_false]
        rw [ih (acc ++ data), ih ([] ++ data)]
        simp

/-! ## Folding `setMap` over entry lists: congruence and permutation invariance -/

theorem lookupMap_foldl_setMap_congr {κ β : Type} [DecidableEq κ]
    (es : List (κ × β)) (m1 m2 : List (κ × β))
    (h : ∀ k, lookupMap m1 k = lookupMap m2 k) (k : κ) :
    lookupMap (es.foldl (fun m e => setMap m e.1 e.2) m1) k =
      lookupMap (es.foldl (fun m e => setMap m e.1 e.2) m2) k := by
  induction es generalizing m1 m2 with
  | nil => exact h k
  | cons a rest ih =>
    simp only [List.foldl_cons]
    refine ih (setMap m1 a.1 a.2) (setMap m2 a.1 a.2) (fun k' => ?_) 
    by_cases hk : k' = a.1
    · subst hk
      rw [lookupMap_setMap_self, lookupMap_setMap_self]
    · rw [lookupMap_setMap_ne _ _ _ _ hk, lookupMap_setMap_ne _ _ _ _ hk]
      exact h k'

theorem lookupMap_setMap_comm {κ β : Type} [DecidableEq κ]
    (m : List (κ × β)) (a b : κ × β) (hab : a.1 ≠ b.1) (k : κ) :
    lookupMap (setMap (setMap m a.1 a.2) b.1 b.2) k =
      lookupMap (setMap (setMap m b.1 b.2) a.1 a.2) k := by
  by_cases hka : k = a.1
  · subst hka
    rw [lookupMap_setMap_ne _ _ _ _ hab, lookupMap_setMap_self, lookupMap_setMap_self]
  · by_cases hkb : k = b.1
    · subst hkb
      rw [lookupMap_setMap_self, lookupMap_setMap_ne _ _ _ _ (Ne.symm hab),
        lookupMap_setMap_self]
    · rw [lookupMap_setMap_ne _ _ _ _ hkb, lookupMap_setMap_ne _ _ _ _ hka,
        lookupMap_setMap_ne _ _ _ _ hka, lookupMap_setMap_ne _ _ _ _ hkb]

theorem lookupMap_foldl_setMap_perm {κ β : Type} [DecidableEq κ]
    {es es' : List (κ × β)} (hp : es.Perm es')
    (hnd : (es.map Prod.fst).Nodup) (m : List (κ × β)) (k : κ) :
    lookupMap (es.foldl (fun m e => setMap m e.1 e.2) m) k =
      lookupMap (es'.foldl (fun m e => setMap m e.1 e.2) m) k := by
  induction hp generalizing m with
  | nil => rfl
  | cons x h ih =>
    simp only [List.map_cons, List.nodup_cons] at hnd
    simp only [List.foldl_cons]
    exact ih hnd.2 (setMap m x.1 x.2)
  | swap x y l =>
    simp only [List.map_cons, List.nodup_cons, List.mem_cons] at hnd
    have hxy : y.1 ≠ x.1 := fun hc => hnd.1 (Or.inl hc)
    simp only [List.foldl_cons]
    exact lookupMap_foldl_setMap_congr l _ _
      (lookupMap_setMap_comm m y x hxy) k
  | trans h₁ h₂ ih₁ ih₂ =>
    have hnd₂ := ((h₁.map Prod.fst).nodup_iff).mp hnd
    rw [ih₁ hnd m, ih₂ hnd₂ m]

/-! ## The chunk handler's state effect and folded uploads -/

theorem uploadChunk_ok_state (st : ServerState) (now : Nat) (sid : String)
    (idx : Int) (data : Bytes) (uid : String) (sess : Session)
    (hsid : sid ≠ "") (hs : lookupMap st.sessions sid = some sess)
    (hu : sess.userId = uid) :
    uploadChunk st now (some sid) (some idx) (some data) uid =
      ({ st with
          chunkFiles := setMap st.chunkFiles (sess.tempDir, idx) data
          sessions := setMap st.sessions sid
            { sess with receivedChunks := addIdx sess.receivedChunks idx
                        lastUpdate := now } },
        .ok (idx, (addIdx sess.receivedChunks idx).length, sess.totalChunks)) := by
  simp [uploadChunk, strPresent, hsid, hs, hu]

theorem foldl_addIdx_append (ups : List (Int × Bytes)) (r : List Int)
    (hnd : (ups.map Prod.fst).Nodup)
    (hdis : ∀ i ∈ ups.map Prod.fst, i ∉ r) :
    ups.foldl (fun s u => addIdx s u.1) r = r ++ ups.map Prod.fst := by
  induction ups generalizing r with
  | nil => simp
  | cons u rest ih =>
    simp only [List.map_cons, List.nodup_cons] at hnd
    have hu1 : u.1 ∉ r := hdis u.1 (by simp)
    have hstep : addIdx r u.1 = r ++ [u.1] := by
      simp [addIdx, hu1]
    simp only [List.foldl_cons, hstep]
    rw [ih (r ++ [u.1]) hnd.2]
    · simp
    · intro i hi
      have hir : i ∉ r := hdis i (by simp [hi])
      have hiu : i ≠ u.1 := fun hc => hnd.1 (hc ▸ hi)
      simp [List.mem_append, hir, hiu]

theorem applyUploads_eq (st : ServerState) (now : Nat) (sid uid : String)
    (ups : List (Int × Bytes)) (sess : Session)
    (hsid : sid ≠ "") (hs : lookupMap st.sessions sid = some sess)
    (hu : sess.userId = uid) :
    applyUploads st now sid uid ups = { st with
      chunkFiles := ups.foldl (fun m u => setMap m (sess.tempDir, u.1) u.2) st.chunkFiles
      sessions := setMap st.sessions sid { sess with
        receivedChunks := ups.foldl (fun s u => addIdx s u.1) sess.receivedChunks
        lastUpdate := if ups.isEmpty then sess.lastUpdate else now } } := by
  induction ups generalizing st sess with
  | nil =>
    simp only [applyUploads, List.foldl_nil, List.isEmpty_nil, if_pos]
    rw [setMap_eq_self_of_lookup st.sessions sid sess hs]
  | cons u rest ih =>
    have hstep := uploadChunk_ok_state st now sid u.1 u.2 uid sess hsid hs hu
    have happ : applyUploads st now sid uid (u :: rest) =
        applyUploads (uploadChunk st now (some sid) (some u.1) (some u.2) uid).1
          now sid uid rest := by
      simp [applyUploads]
    rw [happ, hstep]
    set sess1 : Session :=
      { sess with receivedChunks := addIdx sess.receivedChunks u.1
                  lastUpdate := now } with hsess1
    have hs1 : lookupMap (setMap st.sessions sid sess1) sid = some sess1 :=
      lookupMap_setMap_self _ _ _
    rw [ih _ sess1 hs1 hu]
    simp only [setMap_setMap, hsess1]
    simp [List.isEmpty_cons]

/-! ## Branch lemmas for the finalize handler -/

theorem finalizeUpload_notFound (st : ServerState) (sid fname : String) (tc : Nat)
    (uid : String) (ioFail : Option Nat)
    (hsid : sid ≠ "") (hfn : fname ≠ "") (htc : tc ≠ 0)
    (hs : lookupMap st.sessions sid = none) :
    finalizeUpload st (some sid) (some fname) (some tc) uid ioFail =
      (st, .error (.notFound "Upload session not found")) := by
  simp [finalizeUpload, strPresent, natPresent, hsid, hfn, htc, hs]

theorem finalizeUpload_incomplete (st : ServerState) (sid fname : String) (tc : Nat)
    (uid : String) (ioFail : Option Nat) (sess : Session)
    (hsid : sid ≠ "") (hfn : fname ≠ "") (htc : tc ≠ 0)
    (hs : lookupMap st.sessions sid = some sess) (hu : sess.userId = uid)
    (hsz : sess.receivedChunks.length ≠ sess.totalChunks) :
    finalizeUpload st (some sid) (some fname) (some tc) uid ioFail =
      (st, .error (.missingChunks sess.receivedChunks.length sess.totalChunks)) := by
  simp [finalizeUpload, strPresent, natPresent, hsid, hfn, htc, hs, hu, hsz]

theorem finalizeUpload_run (st : ServerState) (sid fname : String) (tc : Nat)
    (uid : String) (ioFail : Option Nat) (sess : Session)
    (hsid : sid ≠ "") (hfn : fname ≠ "") (htc : tc ≠ 0)
    (hs : lookupMap st.sessions sid = some sess) (hu : sess.userId = uid)
    (hsz : sess.receivedChunks.length = sess.totalChunks) :
    finalizeUpload st (some sid) (some fname) (some tc) uid ioFail =
      (let finalName := resolveConflict (namesIn st.destFiles sess.targetDir) fname
       let combined := combineChunks st.chunkFiles sess.tempDir sess.totalChunks ioFail
       let destFiles' := setMap st.destFiles (sess.targetDir, finalName) combined.1
       match combined.2 with
       | some msg =>
         ({ st with
             destFiles := destFiles'
             sessions := delMap st.sessions sid
             chunkFiles := [] },
           .error (.serverError msg))
       | none =>
         ({ st with
             destFiles := destFiles'
             sessions := delMap st.sessions sid
             chunkFiles := [] },
           .ok (mkFileItem finalName combined.1.length))) := by
  simp [finalizeUpload, strPresent, natPresent, hsid, hfn, htc, hs, hu, hsz]

theorem finalizeUpload_isErr_of_no_chunks (st : ServerState) (sid : String)
    (sess : Session) (hcf : st.chunkFiles = [])
    (hs : lookupMap st.sessions sid = some sess) (hn : 0 < sess.totalChunks)
    (fn : Option String) (tc : Option Nat) (uid : String) (io : Option Nat) :
    isErr (finalizeUpload st (some sid) fn tc uid io).2 = true := by
  unfold finalizeUpload
  by_cases h1 : strPresent (some sid) = false ∨ strPresent fn = false ∨
      natPresent tc = false
  · rw [if_pos h1]
    rfl
  · rw [if_neg h1]
    simp only [Option.getD_some, hs]
    by_cases h2 : sess.userId ≠ uid
    · rw [if_pos h2]
      rfl
    · rw [if_neg h2]
      by_cases h3 : sess.receivedChunks.length ≠ sess.totalChunks
      · rw [if_pos h3]
        rfl
      · rw [if_neg h3]
        obtain ⟨m, hm⟩ := Nat.exists_eq_add_of_lt hn
        have hrange : List.range sess.totalChunks = 0 :: (List.range (sess.totalChunks - 1)).map Nat.succ := by
          rw [hm]
          simp [List.range_succ_eq_map]
        simp [combineChunks, hcf, hrange, combineGo, lookupMap, isErr]

/-! ## Arithmetic of the client splitting loop -/

theorem flatten_split_take (data : Bytes) (c : Nat) (k : Nat) :
    ((List.range k).map (fun i => (data.drop (i * c)).take c)).flatten =
      data.take (k * c) := by
  induction k with
  | zero => simp
  | succ k ih =>
    rw [List.range_succ, List.map_append, List.flatten_append]
    simp only [List.map_cons, List.map_nil, List.flatten_cons, List.flatten_nil,
      List.append_nil]
    rw [ih, Nat.succ_mul, List.take_add]

theorem length_le_numChunks_mul (n c : Nat) (hc : 0 < c) :
    n ≤ numChunks n c * c := by
  unfold numChunks
  have h1 : c * ((n + c - 1) / c) + (n + c - 1) % c = n + c - 1 :=
    Nat.div_add_mod (n + c - 1) c
  have h2 : (n + c - 1) % c < c := Nat.mod_lt _ hc
  rw [Nat.mul_comm]
  generalize hq : c * ((n + c - 1) / c) = qc at h1 ⊢
  omega

/-! ## The direct-upload fold produces one item per file -/

theorem uploadDirect_fold_length (files : List (String × Bytes)) (dir : String)
    (d : List ((String × String) × Bytes)) (acc : List FileItem) :
    (files.foldl
      (fun (acc : List ((String × String) × Bytes) × List FileItem) f =>
        let step := processDirectFile acc.1 dir f.1 f.2
        (step.1, acc.2 ++ [step.2]))
      (d, acc)).2.length = acc.length + files.length := by
  induction files generalizing d acc with
  | nil => simp
  | cons f rest ih =>
    simp only [List.foldl_cons]
    rw [ih]
    simp
    omega

/-! ## The sandbox containment check on concatenated paths -/

theorem charList_isPrefixOf_append (l l' : List Char) :
    l.isPrefixOf (l ++ l') = true := by
  induction l with
  | nil => simp [List.isPrefixOf]
  | cons c rest ih => simp [List.isPrefixOf, ih]

theorem strStartsWith_joinPath (dir rel : String) :
    strStartsWith (joinPath dir rel) dir = true := by
  unfold strStartsWith joinPath
  rw [String.data_append, String.data_append, List.append_assoc]
  exact charList_isPrefixOf_append dir.data ("/".data ++ rel.data)

/-! ## Helper lemmas about whole-handler runs -/

theorem finalizeUpload_fst_fields (st : ServerState) (sid fname : String) (tc : Nat)
    (uid : String) (io : Option Nat) (sess : Session)
    (hsid : sid ≠ "") (hfn : fname ≠ "") (htc : tc ≠ 0)
    (hs : lookupMap st.sessions sid = some sess) (hu : sess.userId = uid)
    (hsz : sess.receivedChunks.length = sess.totalChunks) :
    (finalizeUpload st (some sid) (some fname) (some tc) uid io).1.chunkFiles = []
    ∧ (finalizeUpload st (some sid) (some fname) (some tc) uid io).1.sessions =
        delMap st.sessions sid := by
  rw [finalizeUpload_run st sid fname tc uid io sess hsid hfn htc hs hu hsz]
  cases hcomb : (combineChunks st.chunkFiles sess.tempDir sess.totalChunks io).2 with
  | none => simp [hcomb]
  | some msg => simp [hcomb]

theorem uploadDirect_completes (st : ServerState) (uid : String)
    (reqPath : Option String) (files : List (String × Bytes))
    (hne : files ≠ [])
    (hok : files.any (fun f => rejectedByFilter f.1) = false) :
    (uploadDirect st uid reqPath files).1.sessions = st.sessions
    ∧ (uploadDirect st uid reqPath files).1.chunkFiles = []
    ∧ isErr (uploadDirect st uid reqPath files).2 = false := by
  unfold uploadDirect
  have hne' : files.isEmpty = false := by
    cases files with
    | nil => exact absurd rfl hne
    | cons a l => rfl
  have hlen := uploadDirect_fold_length files
    (joinPath (getUserDirectory uid) (reqPath.getD "/")) st.destFiles []
  have hoe : (files.foldl
      (fun (acc : List ((String × String) × Bytes) × List FileItem) f =>
        let step := processDirectFile acc.1 (joinPath (getUserDirectory uid) (reqPath.getD "/")) f.1 f.2
        (step.1, acc.2 ++ [step.2]))
      (st.destFiles, [])).2.isEmpty = false := by
    cases hie : (files.foldl
      (fun (acc : List ((String × String) × Bytes) × List FileItem) f =>
        let step := processDirectFile acc.1 (joinPath (getUserDirectory uid) (reqPath.getD "/")) f.1 f.2
        (step.1, acc.2 ++ [step.2]))
      (st.destFiles, [])).2 with
    | nil =>
      exfalso
      rw [hie] at hlen
      simp at hlen
      cases files with
      | nil => exact hne rfl
      | cons a l => simp at hlen
    | cons x xs => rfl
  simp only [hok, Bool.false_eq_true, if_false, hne', hoe, isErr]
  refine ⟨?_, ?_, ?_⟩ <;> trivial

/-! ## Claim C1 -/

/-- Claim C1 counterexample: after an I/O failure while combining (write of
chunk `0` fails), the session IS removed from the registry and its on-disk
chunks ARE removed, contradicting the claim that the session and chunks are
preserved so finalize can be retried. -/
theorem c1_counterexample :
    (let res := finalizeUpload stOneChunk (some "A") (some "a.txt") (some 1) "u" (some 0)
     isErr res.2 = true
     ∧ lookupMap res.1.sessions "A" = none
     ∧ res.1.chunkFiles = []) := by decide

/-- Claim C1, amended: on an I/O failure during the combine phase the error is
surfaced as a 500 with the underlying message, the partially written
destination file is left in place (not removed), and the session, its chunks,
and every other session's chunks are all removed, so a retry of finalize on
the same session fails with `NotFound`. -/
theorem c1_finalize_io_failure_cleanup (st : ServerState) (sid fname : String)
    (tc : Nat) (uid : String) (sess : Session) (j : Nat) (ioRetry : Option Nat)
    (hnd : (st.sessions.map Prod.fst).Nodup)
    (hsid : sid ≠ "") (hfn : fname ≠ "") (htc : tc ≠ 0)
    (hs : lookupMap st.sessions sid = some sess) (hu : sess.userId = uid)
    (hsz : sess.receivedChunks.length = sess.totalChunks)
    (hj : j < sess.totalChunks) :
    (∃ m, (finalizeUpload st (some sid) (some fname) (some tc) uid (some j)).2 =
        .error (.serverError m))
    ∧ (lookupMap (finalizeUpload st (some sid) (some fname) (some tc) uid (some j)).1.destFiles
        (sess.targetDir, resolveConflict (namesIn st.destFiles sess.targetDir) fname)).isSome
    ∧ lookupMap (finalizeUpload st (some sid) (some fname) (some tc) uid (some j)).1.sessions sid = none
    ∧ (finalizeUpload st (some sid) (some fname) (some tc) uid (some j)).1.chunkFiles = []
    ∧ finalizeUpload (finalizeUpload st (some sid) (some fname) (some tc) uid (some j)).1
        (some sid) (some fname) (some tc) uid ioRetry =
        ((finalizeUpload st (some sid) (some fname) (some tc) uid (some j)).1,
          .error (.notFound "Upload session not found")) := by
  have hrun := finalizeUpload_run st sid fname tc uid (some j) sess hsid hfn htc hs hu hsz
  have hfail : ((combineChunks st.chunkFiles sess.tempDir sess.totalChunks (some j)).2).isSome :=
    combineGo_snd_isSome_of_ioFail st.chunkFiles sess.tempDir j []
      (List.range sess.totalChunks) (List.mem_range.mpr hj)
  obtain ⟨msg, hmsg⟩ := Option.isSome_iff_exists.mp hfail
  rw [hrun]
  simp only [hmsg]
  refine ⟨?_, ?_, ?_, ?_, ?_⟩
  · exact ⟨msg, rfl⟩
  · simp [lookupMap_setMap_self]
  · exact lookupMap_delMap_self _ _ hnd
  · trivial
  · exact finalizeUpload_notFound _ sid fname tc uid ioRetry hsid hfn htc
      (lookupMap_delMap_self _ _ hnd)

/-- Witness for C1 at `stOneChunk` with the write of chunk `0` failing. -/
theorem c1_finalize_io_failure_cleanup_witness :
    (∃ m, (finalizeUpload stOneChunk (some "A") (some "a.txt") (some 1) "u" (some 0)).2 =
        .error (.serverError m))
    ∧ (lookupMap (finalizeUpload stOneChunk (some "A") (some "a.txt") (some 1) "u" (some 0)).1.destFiles
        (sessA1.targetDir, resolveConflict (namesIn stOneChunk.destFiles sessA1.targetDir) "a.txt")).isSome
    ∧ lookupMap (finalizeUpload stOneChunk (some "A") (some "a.txt") (some 1) "u" (some 0)).1.sessions "A" = none
    ∧ (finalizeUpload stOneChunk (some "A") (some "a.txt") (some 1) "u" (some 0)).1.chunkFiles = []
    ∧ finalizeUpload (finalizeUpload stOneChunk (some "A") (some "a.txt") (some 1) "u" (some 0)).1
        (some "A") (some "a.txt") (some 1) "u" none =
        ((finalizeUpload stOneChunk (some "A") (some "a.txt") (some 1) "u" (some 0)).1,
          .error (.notFound "Upload session not found")) :=
  c1_finalize_io_failure_cleanup stOneChunk "A" "a.txt" 1 "u" sessA1 0 none
    (by decide) (by decide) (by decide) (by decide) (by decide) (by decide)
    (by decide) (by decide)

/-! ## Claim C2 -/

/-- Claim C2 counterexample: a session whose received index set covers
`[0, totalChunks)` exactly can still fail finalize, because another request's
`cleanupTempDirectory` (here: cancelling a different session `B`) deletes the
chunk blobs of every session.  So "finalize succeeds iff the received set
covers `[0, totalChunks)`" is false on the code. -/
theorem c2_counterexample :
    (let st1 := (initChunked emptyState 0 (some "a.txt") (some 1) (some 1) (some 5) (some "A") (some "/") "u").1
     let st2 := (initChunked st1 0 (some "b.txt") (some 1) (some 1) (some 5) (some "B") (some "/") "u").1
     let st3 := (uploadChunk st2 1 (some "A") (some 0) (some [7]) "u").1
     let st4 := (cancelUpload st3 "B" "u").1
     (lookupMap st4.sessions "A").map Session.receivedChunks = some [0]
     ∧ (lookupMap st4.sessions "A").map Session.totalChunks = some 1
     ∧ isErr (finalizeUpload st4 (some "A") (some "a.txt") (some 1) "u" none).2 = true) := by
  decide

/-- Claim C2, amended: for a session owned by the caller, a failure-free
finalize succeeds iff the received count equals `totalChunks` AND every index
`0 .. totalChunks-1` still has its chunk blob on disk; when the received count
differs from `totalChunks`, finalize fails with the 400 `Missing chunks`
response reporting received and expected counts and leaves the state
unchanged. -/
theorem c2_finalize_success_iff (st : ServerState) (sid fname : String)
    (tc : Nat) (uid : String) (sess : Session)
    (hsid : sid ≠ "") (hfn : fname ≠ "") (htc : tc ≠ 0)
    (hs : lookupMap st.sessions sid = some sess) (hu : sess.userId = uid) :
    (isErr (finalizeUpload st (some sid) (some fname) (some tc) uid none).2 = false
      ↔ (sess.receivedChunks.length = sess.totalChunks
         ∧ ∀ i < sess.totalChunks, (lookupMap st.chunkFiles (sess.tempDir, (i : Int))).isSome))
    ∧ (sess.receivedChunks.length ≠ sess.totalChunks →
        finalizeUpload st (some sid) (some fname) (some tc) uid none =
          (st, .error (.missingChunks sess.receivedChunks.length sess.totalChunks))) := by
  by_cases hsz : sess.receivedChunks.length = sess.totalChunks
  · have hrun := finalizeUpload_run st sid fname tc uid none sess hsid hfn htc hs hu hsz
    constructor
    · rw [hrun]
      cases hcomb : (combineChunks st.chunkFiles sess.tempDir sess.totalChunks none).2 with
      | some msg =>
        simp only [hcomb, isErr]
        constructor
        · intro h; cases h
        · rintro ⟨-, hall⟩
          have hnone := (combineGo_snd_none_iff st.chunkFiles sess.tempDir []
            (List.range sess.totalChunks)).mpr
            (fun i hi => hall i (List.mem_range.mp hi))
          have : (combineChunks st.chunkFiles sess.tempDir sess.totalChunks none).2 = none := hnone
          rw [hcomb] at this
          cases this
      | none =>
        simp only [hcomb, isErr]
        constructor
        · intro _
          refine ⟨hsz, fun i hi => ?_⟩
          have hnone : (combineGo st.chunkFiles sess.tempDir none [] (List.range sess.totalChunks)).2 = none := hcomb
          exact (combineGo_snd_none_iff st.chunkFiles sess.tempDir []
            (List.range sess.totalChunks)).mp hnone i (List.mem_range.mpr hi)
        · intro _
          trivial
    · intro hne
      exact absurd hsz hne
  · have hinc := finalizeUpload_incomplete st sid fname tc uid none sess hsid hfn htc hs hu hsz
    constructor
    · rw [hinc]
      simp only [isErr]
      constructor
      · intro h; cases h
      · rintro ⟨h, -⟩
        exact absurd h hsz
    · intro _
      exact hinc

/-- Witness for C2 at `stOneChunk`: the complete one-chunk session. -/
theorem c2_finalize_success_iff_witness :
    (isErr (finalizeUpload stOneChunk (some "A") (some "a.txt") (some 1) "u" none).2 = false
      ↔ (sessA1.receivedChunks.length = sessA1.totalChunks
         ∧ ∀ i < sessA1.totalChunks, (lookupMap stOneChunk.chunkFiles (sessA1.tempDir, (i : Int))).isSome))
    ∧ (sessA1.receivedChunks.length ≠ sessA1.totalChunks →
        finalizeUpload stOneChunk (some "A") (some "a.txt") (some 1) "u" none =
          (stOneChunk, .error (.missingChunks sessA1.receivedChunks.length sessA1.totalChunks))) :=
  c2_finalize_success_iff stOneChunk "A" "a.txt" 1 "u" sessA1
    (by decide) (by decide) (by decide) (by decide) (by decide)

/-! ## Claim C3 -/

/-- Claim C3 counterexample: init succeeds although `chunkSize` is absent, and
a second init with the same `sessionId` (even from a different owner) also
succeeds and silently replaces the existing session — there is no
`ConflictingSession` error. -/
theorem c3_counterexample :
    isErr (initChunked emptyState 0 (some "a.txt") (some 10) (some 2) none (some "S") (some "/") "u").2 = false
    ∧ (let st1 := (initChunked emptyState 0 (some "a.txt") (some 10) (some 2) none (some "S") (some "/") "u").1
       isErr (initChunked st1 5 (some "b.txt") (some 20) (some 3) (some 7) (some "S") (some "/") "v").2 = false
       ∧ (lookupMap (initChunked st1 5 (some "b.txt") (some 20) (some 3) (some 7) (some "S") (some "/") "v").1.sessions "S").map
           Session.fileName = some "b.txt") := by
  decide

/-- Claim C3, amended: init fails with `InvalidRequest` exactly when
`fileName`, `fileSize`, `totalChunks` or `sessionId` is absent or falsy
(`chunkSize` and the target path are not validated; `ownerId` comes from
authentication); when the four checked fields are present, init succeeds and
stores the new session record under `sessionId`, silently replacing any
existing session with that id. -/
theorem c3_init_validation_and_silent_replace (st : ServerState) (now : Nat)
    (fileName : Option String) (fileSize totalChunks chunkSize : Option Nat)
    (sessionId reqPath : Option String) (userId : String) :
    (strPresent fileName = false ∨ natPresent fileSize = false ∨
        natPresent totalChunks = false ∨ strPresent sessionId = false →
      initChunked st now fileName fileSize totalChunks chunkSize sessionId reqPath userId =
        (st, .error (.invalidRequest "Missing required fields for chunked upload")))
    ∧ (strPresent fileName = true → natPresent fileSize = true →
        natPresent totalChunks = true → strPresent sessionId = true →
        isErr (initChunked st now fileName fileSize totalChunks chunkSize sessionId reqPath userId).2 = false
        ∧ lookupMap (initChunked st now fileName fileSize totalChunks chunkSize sessionId reqPath userId).1.sessions
            (sessionId.getD "") = some
            { sessionId := sessionId.getD ""
              fileName := fileName.getD ""
              fileSize := fileSize.getD 0
              totalChunks := totalChunks.getD 0
              chunkSize := chunkSize
              userId := userId
              targetDir := joinPath (getUserDirectory userId) (reqPath.getD "/")
              tempDir := "__dirname/temp/" ++ sessionId.getD ""
              receivedChunks := []
              startTime := now
              lastUpdate := now }) := by
  constructor
  · intro h
    simp [initChunked, h]
  · intro h1 h2 h3 h4
    simp [initChunked, h1, h2, h3, h4, strStartsWith_joinPath, isErr,
      lookupMap_setMap_self]

/-- Witness for C3 at a fresh state with all checked fields present. -/
theorem c3_init_validation_and_silent_replace_witness :
    isErr (initChunked emptyState 3 (some "a.txt") (some 10) (some 2) (some 4) (some "S") (some "/") "u").2 = false
    ∧ lookupMap (initChunked emptyState 3 (some "a.txt") (some 10) (some 2) (some 4) (some "S") (some "/") "u").1.sessions
        "S" = some
        { sessionId := "S", fileName := "a.txt", fileSize := 10, totalChunks := 2,
          chunkSize := some 4, userId := "u",
          targetDir := joinPath (getUserDirectory "u") "/",
          tempDir := "__dirname/temp/S", receivedChunks := [],
          startTime := 3, lastUpdate := 3 } :=
  (c3_init_validation_and_silent_replace emptyState 3 (some "a.txt") (some 10)
    (some 2) (some 4) (some "S") (some "/") "u").2
    (by decide) (by decide) (by decide) (by decide)

/-! ## Claim C4 -/

/-- Claim C4 counterexample: for a session with `totalChunks = 2`, recording a
chunk with index `5` (outside `[0, 2)`) succeeds and the index is added to
`receivedChunks` and counted, instead of failing with `InvalidRequest`. -/
theorem c4_counterexample :
    isErr (uploadChunk stTwoTotal 1 (some "S") (some 5) (some [9]) "u").2 = false
    ∧ (lookupMap (uploadChunk stTwoTotal 1 (some "S") (some 5) (some [9]) "u").1.sessions "S").map
        Session.receivedChunks = some [5] := by decide

/-- Claim C4, amended: the chunk handler performs no range check on
`chunkIndex`: for every existing session and authorized caller, any parsed
index — in particular one outside `[0, totalChunks)` — is accepted, its blob
is stored, and it is added to `receivedChunkIndices` and counted toward
completion. -/
theorem c4_chunk_index_unchecked (st : ServerState) (now : Nat) (sid : String)
    (idx : Int) (data : Bytes) (uid : String) (sess : Session)
    (hsid : sid ≠ "") (hs : lookupMap st.sessions sid = some sess)
    (hu : sess.userId = uid) :
    (uploadChunk st now (some sid) (some idx) (some data) uid).2 =
      .ok (idx, (addIdx sess.receivedChunks idx).length, sess.totalChunks)
    ∧ (lookupMap (uploadChunk st now (some sid) (some idx) (some data) uid).1.sessions sid).map
        Session.receivedChunks = some (addIdx sess.receivedChunks idx)
    ∧ lookupMap (uploadChunk st now (some sid) (some idx) (some data) uid).1.chunkFiles
        (sess.tempDir, idx) = some data := by
  rw [uploadChunk_ok_state st now sid idx data uid sess hsid hs hu]
  refine ⟨rfl, ?_, ?_⟩
  · simp [lookupMap_setMap_self]
  · simp [lookupMap_setMap_self]

/-- Witness for C4: index `5` accepted into a session expecting two chunks. -/
theorem c4_chunk_index_unchecked_witness :
    (uploadChunk stTwoTotal 1 (some "S") (some 5) (some [9]) "u").2 =
      .ok (5, (addIdx sessS2.receivedChunks 5).length, sessS2.totalChunks)
    ∧ (lookupMap (uploadChunk stTwoTotal 1 (some "S") (some 5) (some [9]) "u").1.sessions "S").map
        Session.receivedChunks = some (addIdx sessS2.receivedChunks 5)
    ∧ lookupMap (uploadChunk stTwoTotal 1 (some "S") (some 5) (some [9]) "u").1.chunkFiles
        (sessS2.tempDir, 5) = some [9] :=
  c4_chunk_index_unchecked stTwoTotal 1 "S" 5 [9] "u" sessS2
    (by decide) (by decide) (by decide)

/-! ## Claim C5 -/

/-- Claim C5 counterexample: cancelling a session that does not exist returns
the 404 `Upload session not found` error, not success — cancel is not
idempotent in the claimed sense. -/
theorem c5_counterexample :
    cancelUpload emptyState "ghost" "u" =
      (emptyState, .error (.notFound "Upload session not found")) := rfl

/-- Claim C5, amended: cancel fails with `NotFound` when the session does not
exist; when the session exists and the owner matches, cancel succeeds and
afterwards the session is absent from the registry and no chunk blob remains
on disk (the handler ends with a wipe of the whole temp tree). -/
theorem c5_cancel_notFound_and_cleanup (st : ServerState) (sid uid : String)
    (hnd : (st.sessions.map Prod.fst).Nodup) :
    (lookupMap st.sessions sid = none →
      cancelUpload st sid uid = (st, .error (.notFound "Upload session not found")))
    ∧ (∀ sess, lookupMap st.sessions sid = some sess → sess.userId = uid →
        isErr (cancelUpload st sid uid).2 = false
        ∧ lookupMap (cancelUpload st sid uid).1.sessions sid = none
        ∧ (cancelUpload st sid uid).1.chunkFiles = []) := by
  constructor
  · intro h
    simp [cancelUpload, h]
  · intro sess hs hu
    simp [cancelUpload, hs, hu, isErr, lookupMap_delMap_self _ _ hnd]

/-- Witness for C5 at `stOneChunk`, cancelling the existing session `A`. -/
theorem c5_cancel_notFound_and_cleanup_witness :
    (lookupMap stOneChunk.sessions "A" = none →
      cancelUpload stOneChunk "A" "u" = (stOneChunk, .error (.notFound "Upload session not found")))
    ∧ (∀ sess, lookupMap stOneChunk.sessions "A" = some sess → sess.userId = "u" →
        isErr (cancelUpload stOneChunk "A" "u").2 = false
        ∧ lookupMap (cancelUpload stOneChunk "A" "u").1.sessions "A" = none
        ∧ (cancelUpload stOneChunk "A" "u").1.chunkFiles = []) :=
  c5_cancel_notFound_and_cleanup stOneChunk "A" "u" (by decide)

/-! ## Claim C6 -/

/-- Claim C6 is right about the intent and the chunked path, and the direct
path is a code bug: the chunked finalize path yields `doc.txt` then
`doc (1).txt`, but the direct path stores the file at its original name first
and then probes for conflicts starting at that very path, so the file always
collides with itself: the first direct upload of `doc.txt` into an empty
directory is stored as `doc (1).txt` and the second as `doc (2).txt`.  The
two paths do not behave identically. -/
theorem c6_conflict_divergence :
    (let i1 := (initChunked emptyState 0 (some "doc.txt") (some 1) (some 1) (some 5) (some "A") (some "/") "u").1
     let u1 := (uploadChunk i1 0 (some "A") (some 0) (some [1]) "u").1
     let f1 := finalizeUpload u1 (some "A") (some "doc.txt") (some 1) "u" none
     let i2 := (initChunked f1.1 0 (some "doc.txt") (some 1) (some 1) (some 5) (some "B") (some "/") "u").1
     let u2 := (uploadChunk i2 0 (some "B") (some 0) (some [2]) "u").1
     let f2 := finalizeUpload u2 (some "B") (some "doc.txt") (some 1) "u" none
     (Except.toOption f1.2).map FileItem.name = some "doc.txt"
     ∧ (Except.toOption f2.2).map FileItem.name = some "doc (1).txt")
    ∧ (let d1 := uploadDirect emptyState "u" (some "/") [("doc.txt", [1])]
       let d2 := uploadDirect d1.1 "u" (some "/") [("doc.txt", [2])]
       (Except.toOption d1.2).map (List.map FileItem.name) = some ["doc (1).txt"]
       ∧ (Except.toOption d2.2).map (List.map FileItem.name) = some ["doc (2).txt"]) := by
  decide

/-! ## Claim C7 -/

/-- Claim C7: order independence of chunk arrival.  For a fresh session and
any permutation of the chunk uploads (distinct indices, identical per-index
contents, full coverage by count), the entire finalize outcome — returned
result and resulting server state, hence in particular the bytes of the
finalized file — is identical to the ascending-order run: reassembly reads
chunks by explicit index `0 .. totalChunks-1`, never by arrival order. -/
theorem c7_order_independence (st : ServerState) (now : Nat)
    (sid fname uid : String) (tcReq : Nat) (sess : Session)
    (ups ups' : List (Int × Bytes)) (io : Option Nat)
    (hsid : sid ≠ "") (hfn : fname ≠ "") (htc : tcReq ≠ 0)
    (hs : lookupMap st.sessions sid = some sess) (hu : sess.userId = uid)
    (hfresh : sess.receivedChunks = [])
    (hnd : (ups.map Prod.fst).Nodup) (hp : ups.Perm ups')
    (hlen : ups.length = sess.totalChunks) :
    finalizeUpload (applyUploads st now sid uid ups) (some sid) (some fname)
        (some tcReq) uid io =
      finalizeUpload (applyUploads st now sid uid ups') (some sid) (some fname)
        (some tcReq) uid io := by
  by_cases hne : ups = []
  · subst hne
    have : ups' = [] := List.Perm.eq_nil hp.symm
    subst this
    rfl
  · have hne' : ups' ≠ [] := fun h => hne (List.Perm.eq_nil (h ▸ hp))
    have hndB : (ups'.map Prod.fst).Nodup := ((hp.map Prod.fst).nodup_iff).mp hnd
    have hA := applyUploads_eq st now sid uid ups sess hsid hs hu
    have hB := applyUploads_eq st now sid uid ups' sess hsid hs hu
    have hE : ups.isEmpty = false := by
      cases ups with
      | nil => exact absurd rfl hne
      | cons a l => rfl
    have hE' : ups'.isEmpty = false := by
      cases ups' with
      | nil => exact absurd rfl hne'
      | cons a l => rfl
    have hfoldA : ups.foldl (fun s u => addIdx s u.1) sess.receivedChunks =
        ups.map Prod.fst := by
      rw [hfresh]
      simpa using foldl_addIdx_append ups [] hnd (by simp)
    have hfoldB : ups'.foldl (fun s u => addIdx s u.1) sess.receivedChunks =
        ups'.map Prod.fst := by
      rw [hfresh]
      simpa using foldl_addIdx_append ups' [] hndB (by simp)
    rw [hA, hB]
    simp only [hE, hE', Bool.false_eq_true, if_false, hfoldA, hfoldB]
    have hszA : (ups.map Prod.fst).length = sess.totalChunks := by
      simpa using hlen
    have hszB : (ups'.map Prod.fst).length = sess.totalChunks := by
      rw [List.length_map, hp.length_eq.symm]
      exact hlen
    rw [finalizeUpload_run _ sid fname tcReq uid io
      { sess with receivedChunks := ups.map Prod.fst, lastUpdate := now }
      hsid hfn htc (lookupMap_setMap_self _ _ _) hu hszA]
    rw [finalizeUpload_run _ sid fname tcReq uid io
      { sess with receivedChunks := ups'.map Prod.fst, lastUpdate := now }
      hsid hfn htc (lookupMap_setMap_self _ _ _) hu hszB]
    have hCA : ups.foldl (fun m u => setMap m (sess.tempDir, u.1) u.2) st.chunkFiles =
        (ups.map (fun u : Int × Bytes => ((sess.tempDir, u.1), u.2))).foldl
          (fun m e => setMap m e.1 e.2) st.chunkFiles := by
      rw [List.foldl_map]
    have hCB : ups'.foldl (fun m u => setMap m (sess.tempDir, u.1) u.2) st.chunkFiles =
        (ups'.map (fun u : Int × Bytes => ((sess.tempDir, u.1), u.2))).foldl
          (fun m e => setMap m e.1 e.2) st.chunkFiles := by
      rw [List.foldl_map]
    have hndKeys : ((ups.map (fun u : Int × Bytes => ((sess.tempDir, u.1), u.2))).map
        Prod.fst).Nodup := by
      rw [List.map_map]
      have heq : ((Prod.fst ∘ fun u : Int × Bytes => ((sess.tempDir, u.1), u.2))) =
          ((fun i => (sess.tempDir, i)) ∘ Prod.fst) := rfl
      rw [heq, ← List.map_map]
      exact hnd.map (fun a b hab => congrArg Prod.snd hab)
    have hlook : ∀ k, lookupMap
        (ups.foldl (fun m u => setMap m (sess.tempDir, u.1) u.2) st.chunkFiles) k =
        lookupMap
        (ups'.foldl (fun m u => setMap m (sess.tempDir, u.1) u.2) st.chunkFiles) k := by
      intro k
      rw [hCA, hCB]
      exact lookupMap_foldl_setMap_perm
        (hp.map (fun u : Int × Bytes => ((sess.tempDir, u.1), u.2))) hndKeys
        st.chunkFiles k
    have hcomb : combineChunks
        (ups.foldl (fun m u => setMap m (sess.tempDir, u.1) u.2) st.chunkFiles)
        sess.tempDir sess.totalChunks io =
        combineChunks
        (ups'.foldl (fun m u => setMap m (sess.tempDir, u.1) u.2) st.chunkFiles)
        sess.tempDir sess.totalChunks io := by
      unfold combineChunks
      exact combineGo_congr _ _ sess.tempDir io [] (List.range sess.totalChunks)
        (fun i _ => hlook (sess.tempDir, (i : Int)))
    dsimp only
    rw [hcomb, delMap_setMap, delMap_setMap]

/-- Witness for C7: chunks arriving in order 2, 0, 1 finalize exactly like
chunks arriving 0, 1, 2, and the finalized file is `chunk0 ‖ chunk1 ‖ chunk2`. -/
theorem c7_order_independence_witness :
    finalizeUpload (applyUploads stInit3 5 "C" "u" [((2 : Int), [22]), (0, [20]), (1, [21])])
        (some "C") (some "f.bin") (some 3) "u" none =
      finalizeUpload (applyUploads stInit3 5 "C" "u" [((0 : Int), [20]), (1, [21]), (2, [22])])
        (some "C") (some "f.bin") (some 3) "u" none
    ∧ lookupMap (finalizeUpload (applyUploads stInit3 5 "C" "u" [((2 : Int), [22]), (0, [20]), (1, [21])])
        (some "C") (some "f.bin") (some 3) "u" none).1.destFiles
        (sessC3.targetDir, "f.bin") = some [20, 21, 22] :=
  ⟨c7_order_independence stInit3 5 "C" "f.bin" "u" 3 sessC3
      [((2 : Int), [22]), (0, [20]), (1, [21])] [((0 : Int), [20]), (1, [21]), (2, [22])] none
      (by decide) (by decide) (by decide) (by decide) (by decide) (by decide)
      (by decide) (by decide) (by decide),
    by decide⟩

/-! ## Claim C8 -/

/-- Claim C8: splitting a byte sequence of any size N into fixed-size chunks
of size C (each chunk C bytes except the last, which holds the remainder) and
reassembling the chunks in index order reproduces the original byte sequence
exactly — for every N, so in particular for N ∈ {0, 1, C-1, C, C+1, 10C}. -/
theorem c8_split_reassemble_roundtrip (data : Bytes) (c : Nat) (hc : 0 < c) :
    reassemble (splitChunks data c) = data := by
  unfold reassemble splitChunks
  rw [flatten_split_take]
  exact List.take_of_length_le (length_le_numChunks_mul data.length c hc)

/-- Witness for C8 at C = 3, N = 7 (= 2C + 1). -/
theorem c8_split_reassemble_roundtrip_witness :
    0 < 3 ∧ reassemble (splitChunks [1, 2, 3, 4, 5, 6, 7] 3) = [1, 2, 3, 4, 5, 6, 7] :=
  ⟨by decide, c8_split_reassemble_roundtrip [1, 2, 3, 4, 5, 6, 7] 3 (by decide)⟩

/-! ## Claim C9 -/

/-- Claim C9 counterexample: a session whose `lastUpdate` is within the
30-minute threshold keeps its registry entry after one janitor cycle, but its
on-disk chunks are deleted by the cycle's unconditional `cleanupTempDirectory`
call — the session is not "left untouched by the sweep". -/
theorem c9_counterexample :
    (lookupMap (janitorSweep stOneChunk 1000).sessions "A").isSome = true
    ∧ stOneChunk.chunkFiles ≠ []
    ∧ (janitorSweep stOneChunk 1000).chunkFiles = [] := by decide

/-- Claim C9, amended: after one janitor cycle, every session with
`now - lastUpdate > 30 min` is absent from the registry, every other session
keeps its registry entry unchanged, and the chunk blobs of ALL sessions —
stale or not — are gone, because the cycle ends with an unconditional wipe of
the whole temp directory. -/
theorem c9_janitor_sweep (st : ServerState) (now : Nat) (sid : String)
    (sess : Session) (hnd : (st.sessions.map Prod.fst).Nodup)
    (hs : lookupMap st.sessions sid = some sess) :
    (now - sess.lastUpdate > staleTime →
        lookupMap (janitorSweep st now).sessions sid = none)
    ∧ (¬ now - sess.lastUpdate > staleTime →
        lookupMap (janitorSweep st now).sessions sid = some sess)
    ∧ (janitorSweep st now).chunkFiles = [] := by
  refine ⟨?_, ?_, rfl⟩
  · intro h
    have hf := lookupMap_filter st.sessions
      (fun p => !(decide (now - p.2.lastUpdate > staleTime))) sid sess hnd hs
    simp [h] at hf
    exact hf
  · intro h
    have hf := lookupMap_filter st.sessions
      (fun p => !(decide (now - p.2.lastUpdate > staleTime))) sid sess hnd hs
    simp [h] at hf
    exact hf

/-- Witness for C9: the fresh session of `stOneChunk` swept at `now = 1000`. -/
theorem c9_janitor_sweep_witness :
    (1000 - sessA1.lastUpdate > staleTime →
        lookupMap (janitorSweep stOneChunk 1000).sessions "A" = none)
    ∧ (¬ 1000 - sessA1.lastUpdate > staleTime →
        lookupMap (janitorSweep stOneChunk 1000).sessions "A" = some sessA1)
    ∧ (janitorSweep stOneChunk 1000).chunkFiles = [] :=
  c9_janitor_sweep stOneChunk 1000 "A" sessA1 (by decide) (by decide)

/-! ## Claim C10 -/

/-- Claim C10 counterexample: not EVERY cancel call wipes the temp tree — a
cancel that fails its session lookup (404) leaves every chunk blob in place. -/
theorem c10_counterexample :
    isErr (cancelUpload stOneChunk "ghost" "u").2 = true
    ∧ (cancelUpload stOneChunk "ghost" "u").1.chunkFiles ≠ [] := by decide

/-- Claim C10, amended: every finalize call that passes its precondition
checks (whether the combine phase then succeeds or fails), every cancel call
that passes session lookup and authorization, and every completed direct
upload removes the entire top-level temp tree, including the scratch chunks
of every other active session; those sessions keep their registry entries,
but any later finalize on them fails (it cannot succeed without
re-uploading). -/
theorem c10_cleanup_frame_effect (st : ServerState) (sidB : String)
    (sessB : Session) (hB : lookupMap st.sessions sidB = some sessB)
    (hnB : 0 < sessB.totalChunks) :
    (∀ sidA sessA uidA fname tc io, sidA ≠ "" → fname ≠ "" → tc ≠ 0 → sidA ≠ sidB →
      lookupMap st.sessions sidA = some sessA → sessA.userId = uidA →
      sessA.receivedChunks.length = sessA.totalChunks →
      (finalizeUpload st (some sidA) (some fname) (some tc) uidA io).1.chunkFiles = []
      ∧ lookupMap (finalizeUpload st (some sidA) (some fname) (some tc) uidA io).1.sessions
          sidB = some sessB
      ∧ ∀ fn2 tc2 uid2 io2,
          isErr (finalizeUpload (finalizeUpload st (some sidA) (some fname) (some tc) uidA io).1
            (some sidB) fn2 tc2 uid2 io2).2 = true)
    ∧ (∀ sidA sessA uidA, sidA ≠ sidB →
        lookupMap st.sessions sidA = some sessA → sessA.userId = uidA →
        (cancelUpload st sidA uidA).1.chunkFiles = []
        ∧ lookupMap (cancelUpload st sidA uidA).1.sessions sidB = some sessB
        ∧ ∀ fn2 tc2 uid2 io2,
            isErr (finalizeUpload (cancelUpload st sidA uidA).1 (some sidB) fn2 tc2 uid2 io2).2 = true)
    ∧ (∀ uid reqPath files, files ≠ [] →
        files.any (fun f => rejectedByFilter f.1) = false →
        isErr (uploadDirect st uid reqPath files).2 = false
        ∧ (uploadDirect st uid reqPath files).1.chunkFiles = []
        ∧ lookupMap (uploadDirect st uid reqPath files).1.sessions sidB = some sessB
        ∧ ∀ fn2 tc2 uid2 io2,
            isErr (finalizeUpload (uploadDirect st uid reqPath files).1 (some sidB) fn2 tc2 uid2 io2).2 = true) := by
  refine ⟨?_, ?_, ?_⟩
  · intro sidA sessA uidA fname tc io hsidA hfn htc hne hsA huA hszA
    obtain ⟨hcf, hse⟩ := finalizeUpload_fst_fields st sidA fname tc uidA io sessA
      hsidA hfn htc hsA huA hszA
    have hlookB : lookupMap (finalizeUpload st (some sidA) (some fname) (some tc) uidA io).1.sessions
        sidB = some sessB := by
      rw [hse, lookupMap_delMap_ne st.sessions sidA sidB (Ne.symm hne)]
      exact hB
    exact ⟨hcf, hlookB, fun fn2 tc2 uid2 io2 =>
      finalizeUpload_isErr_of_no_chunks _ sidB sessB hcf hlookB hnB fn2 tc2 uid2 io2⟩
  · intro sidA sessA uidA hne hsA huA
    have hcancel : cancelUpload st sidA uidA =
        ({ st with
            chunkFiles := []
            sessions := delMap st.sessions sidA
            uploadProgress := st.uploadProgress.filter (fun s => !(s == sidA)) }, .ok ()) := by
      simp [cancelUpload, hsA, huA]
    rw [hcancel]
    have hlookB : lookupMap (delMap st.sessions sidA) sidB = some sessB := by
      rw [lookupMap_delMap_ne st.sessions sidA sidB (Ne.symm hne)]
      exact hB
    exact ⟨rfl, hlookB, fun fn2 tc2 uid2 io2 =>
      finalizeUpload_isErr_of_no_chunks _ sidB sessB rfl hlookB hnB fn2 tc2 uid2 io2⟩
  · intro uid reqPath files hne hok
    obtain ⟨hse, hcf, hok2⟩ := uploadDirect_completes st uid reqPath files hne hok
    have hlookB : lookupMap (uploadDirect st uid reqPath files).1.sessions sidB = some sessB := by
      rw [hse]
      exact hB
    exact ⟨hok2, hcf, hlookB, fun fn2 tc2 uid2 io2 =>
      finalizeUpload_isErr_of_no_chunks _ sidB sessB hcf hlookB hnB fn2 tc2 uid2 io2⟩

/-- Witness for C10 at `stTwoSessions` with victim session `B`. -/
theorem c10_cleanup_frame_effect_witness :
    (∀ sidA sessA uidA fname tc io, sidA ≠ "" → fname ≠ "" → tc ≠ 0 → sidA ≠ "B" →
      lookupMap stTwoSessions.sessions sidA = some sessA → sessA.userId = uidA →
      sessA.receivedChunks.length = sessA.totalChunks →
      (finalizeUpload stTwoSessions (some sidA) (some fname) (some tc) uidA io).1.chunkFiles = []
      ∧ lookupMap (finalizeUpload stTwoSessions (some sidA) (some fname) (some tc) uidA io).1.sessions
          "B" = some sessB1
      ∧ ∀ fn2 tc2 uid2 io2,
          isErr (finalizeUpload (finalizeUpload stTwoSessions (some sidA) (some fname) (some tc) uidA io).1
            (some "B") fn2 tc2 uid2 io2).2 = true)
    ∧ (∀ sidA sessA uidA, sidA ≠ "B" →
        lookupMap stTwoSessions.sessions sidA = some sessA → sessA.userId = uidA →
        (cancelUpload stTwoSessions sidA uidA).1.chunkFiles = []
        ∧ lookupMap (cancelUpload stTwoSessions sidA uidA).1.sessions "B" = some sessB1
        ∧ ∀ fn2 tc2 uid2 io2,
            isErr (finalizeUpload (cancelUpload stTwoSessions sidA uidA).1 (some "B") fn2 tc2 uid2 io2).2 = true)
    ∧ (∀ uid reqPath files, files ≠ [] →
        files.any (fun f => rejectedByFilter f.1) = false →
        isErr (uploadDirect stTwoSessions uid reqPath files).2 = false
        ∧ (uploadDirect stTwoSessions uid reqPath files).1.chunkFiles = []
        ∧ lookupMap (uploadDirect stTwoSessions uid reqPath files).1.sessions "B" = some sessB1
        ∧ ∀ fn2 tc2 uid2 io2,
            isErr (finalizeUpload (uploadDirect stTwoSessions uid reqPath files).1 (some "B") fn2 tc2 uid2 io2).2 = true) :=
  c10_cleanup_frame_effect stTwoSessions "B" sessB1 (by decide) (by decide)
